import Mathlib

/-!
Shallow embedding of `src/02_first_stage_ML/AOD_impute.py`: the AOD imputation
pipeline (grouped sampling, GroupKFold outer cross-validation with XGBoost, and
final imputation).  Data tables are modelled as association-list data frames,
the pandas/sklearn primitives the script calls are modelled from their actual
semantics (`DataFrame.sample(frac=..)` rounding, `groupby` dropping null keys,
left-merge null padding, sklearn `GroupKFold`'s greedy largest-group-first fold
assignment), and the numeric learners (XGBoost fit/predict, r2/rmse) are kept
abstract as parameters since their float behaviour is outside the program.
-/

namespace AodImpute

/-- A cell value of a data table. -/
inductive Value where
  | null : Value
  | str : String → Value
  | num : ℚ → Value
  | date : Int → Value
deriving DecidableEq, Repr

instance : Inhabited Value := ⟨Value.null⟩

/-- A data row: an association list from column names to values. -/
abbrev Row := List (String × Value)

/-- A pandas-style data frame: a column index plus rows. -/
structure DF where
  cols : List String
  rows : List Row
deriving DecidableEq, Repr

/-- Read one cell of a row (absent entries read as null / NaN). -/
def rowVal (r : Row) (c : String) : Value := (r.lookup c).getD Value.null

/-- The data of a column projection `df[cs]` (schema check done by `DF.select`). -/
def selData (df : DF) (cs : List String) : DF :=
  ⟨cs, df.rows.map (fun r => cs.map (fun c => (c, rowVal r c)))⟩

/-- `df[cs]`: column projection; raises a KeyError when a column is absent. -/
def DF.select (df : DF) (cs : List String) : Except String DF :=
  if cs.all (fun c => decide (c ∈ df.cols)) then .ok (selData df cs)
  else .error "KeyError: columns not in index"

/-- The data of a single column `df[c]`. -/
def colD (df : DF) (c : String) : List Value := df.rows.map (fun r => rowVal r c)

/-- `df[c]`: one column; raises a KeyError when the column is absent. -/
def DF.col (df : DF) (c : String) : Except String (List Value) :=
  if c ∈ df.cols then .ok (colD df c) else .error ("KeyError: " ++ c)

/-- `df.iloc[idxs]`: positional row selection. -/
def DF.rowsAt (df : DF) (idxs : List Nat) : DF :=
  ⟨df.cols, idxs.filterMap (fun i => df.rows[i]?)⟩

/-- `df.drop(columns=cs, errors='ignore')`. -/
def DF.dropColumns (df : DF) (cs : List String) : DF :=
  ⟨df.cols.filter (fun c => decide (c ∉ cs)),
   df.rows.map (fun r => r.filter (fun p => decide (p.1 ∉ cs)))⟩

/-- Write one cell: replace the entry when the column exists in the row,
append it otherwise. -/
def setColRow (r : Row) (c : String) (v : Value) : Row :=
  if (r.lookup c).isSome then r.map (fun p => if p.1 = c then (c, v) else p)
  else r ++ [(c, v)]

/-- `df[c] = vals`: set a column (replacing it when present, appending otherwise). -/
def addCol (df : DF) (c : String) (vals : List Value) : DF :=
  ⟨if c ∈ df.cols then df.cols else df.cols ++ [c],
   List.zipWith (fun r v => setColRow r c v) df.rows vals⟩

/-- `df.rename(columns={o: n})`. -/
def renameCol (df : DF) (o n : String) : DF :=
  ⟨df.cols.map (fun c => if c = o then n else c),
   df.rows.map (fun r => r.map (fun p => if p.1 = o then (n, p.2) else p))⟩

/-- `df[c] = f(df[c])` applied elementwise; raises a KeyError when `c` is absent. -/
def mapCol (df : DF) (c : String) (f : Value → Value) : Except String DF :=
  if c ∈ df.cols then
    .ok ⟨df.cols, df.rows.map (fun r => setColRow r c (f (rowVal r c)))⟩
  else .error ("KeyError: " ++ c)

/-- `pd.merge(l, r, how='left', on=key)`: every left row is kept; unmatched left
rows are padded with nulls for the right-hand columns; each match produces one
output row. -/
def leftMerge (l r : DF) (key : String) : DF :=
  let rcols := r.cols.filter (fun c => decide (c ≠ key))
  ⟨l.cols ++ rcols,
   l.rows.flatMap (fun lr =>
     match r.rows.filter (fun rr => decide (rowVal rr key = rowVal lr key)) with
     | [] => [lr ++ rcols.map (fun c => (c, Value.null))]
     | ms => ms.map (fun rr => lr ++ rr.filter (fun p => decide (p.1 ≠ key))))⟩

/-- Python's built-in `round`: banker's rounding, ties to the even integer. -/
def pyRound (q : ℚ) : Int :=
  if q - ⌊q⌋ < 1/2 then ⌊q⌋
  else if (1 : ℚ)/2 < q - ⌊q⌋ then ⌊q⌋ + 1
  else if Even ⌊q⌋ then ⌊q⌋ else ⌊q⌋ + 1

/-- `DataFrame.sample(frac=f)` on an axis of length `n` draws
`round(f * n)` rows. -/
def sampleN (f : ℚ) (n : Nat) : Nat := (pyRound (f * n)).toNat

/-- An abstract seeded random draw without replacement: `choice seed n k` is the
list of `k` positions the RNG picks among `n`, pairwise distinct.  This stands
for the numpy `RandomState(seed)` draw inside `DataFrame.sample`. -/
structure ChoiceFn where
  choice : Nat → Nat → Nat → List Nat
  choice_length : ∀ s n k, k ≤ n → (choice s n k).length = k
  choice_nodup : ∀ s n k, k ≤ n → (choice s n k).Nodup
  choice_lt : ∀ s n k, k ≤ n → ∀ i ∈ choice s n k, i < n

/-- `x.sample(frac=f, random_state=seed, replace=False)` over indexed rows. -/
def sampleRows (ch : ChoiceFn) (seed : Nat) (f : ℚ) (rows : List (Nat × Row)) :
    List (Nat × Row) :=
  (ch.choice seed rows.length (sampleN f rows.length)).filterMap (fun i => rows[i]?)

/-- The groupby key of a row: `(grid_id_50km, year_month)`, or `none` when the
group value is missing (pandas `groupby` drops rows with a NaN key). -/
def rowKey (r : Row) : Option (String × String) :=
  match rowVal r "grid_id_50km", rowVal r "year_month" with
  | Value.str g, Value.str m => some (g, m)
  | _, _ => none

/-- The rows of one `(grid_id_50km, year_month)` cell, with their positions. -/
def cellRows (df : DF) (k : String × String) : List (Nat × Row) :=
  df.rows.enum.filter (fun p => decide (rowKey p.2 = some k))

/-- The per-cell sample drawn by
`groupby(['grid_id_50km','year_month']).apply(lambda x: x.sample(frac=f, random_state=42, replace=False))`. -/
def sampleCell (ch : ChoiceFn) (f : ℚ) (df : DF) (k : String × String) :
    List (Nat × Row) :=
  sampleRows ch 42 f (cellRows df k)

/-- Distinct elements of a list in order of first appearance. -/
def uniqFirst {α} [DecidableEq α] : List α → List α
  | [] => []
  | a :: l => a :: (uniqFirst l).filter (fun b => decide (b ≠ a))

/-- Insert into a sorted list (helper of `isort`). -/
def insertLe {α} (le : α → α → Bool) (a : α) : List α → List α
  | [] => [a]
  | b :: l => if le a b then a :: b :: l else b :: insertLe le a l

/-- Insertion sort; stable for the given comparison. -/
def isort {α} (le : α → α → Bool) : List α → List α
  | [] => []
  | a :: l => insertLe le a (isort le l)

/-- Lexicographic code-point comparison of character lists. -/
def strDataLt : List Char → List Char → Bool
  | [], [] => false
  | [], _ :: _ => true
  | _ :: _, [] => false
  | a :: as, b :: bs =>
    if a.toNat < b.toNat then true
    else if b.toNat < a.toNat then false
    else strDataLt as bs

/-- String comparison used when numpy sorts object-dtype labels
(lexicographic by code point, as Python compares `str`). -/
def strLe (a b : String) : Bool := !strDataLt b.data a.data

/-- Rank of a `Value` constructor (used to give mixed values a total order). -/
def valueRank : Value → Nat
  | Value.null => 0
  | Value.str _ => 1
  | Value.num _ => 2
  | Value.date _ => 3

/-- Total comparison on cell values (labels in the data are strings). -/
def valueLe (a b : Value) : Bool :=
  match a, b with
  | Value.str s, Value.str t => strLe s t
  | Value.num x, Value.num y => decide (x ≤ y)
  | Value.date x, Value.date y => decide (x ≤ y)
  | x, y => decide (valueRank x ≤ valueRank y)

/-- Lexicographic comparison of groupby keys. -/
def keyLe (a b : String × String) : Bool :=
  if a.1 = b.1 then strLe a.2 b.2 else strLe a.1 b.1

/-- The groupby cells present in the frame, in sorted key order
(`groupby` uses `sort=True`). -/
def sortedKeys (df : DF) : List (String × String) :=
  isort keyLe (uniqFirst (df.rows.filterMap rowKey))

/-- Lines 54-57: `df.groupby(['grid_id_50km','year_month']).apply(lambda x:
x.sample(frac=f, random_state=42, replace=False)).reset_index(drop=True)`.
Raises a KeyError when a grouping column is absent. -/
def groupSample (ch : ChoiceFn) (f : ℚ) (df : DF) : Except String DF :=
  if "grid_id_50km" ∈ df.cols ∧ "year_month" ∈ df.cols then
    .ok ⟨df.cols, ((sortedKeys df).flatMap (fun k => sampleCell ch f df k)).map Prod.snd⟩
  else .error "KeyError: grid_id_50km"

/-- External elementwise collaborators used by the script:
`pd.to_datetime`, `dt.strftime('%Y-%m')`, `astype(int).astype(str)`. -/
structure Collab where
  toDatetime : Value → Value
  ymFmt : Value → String
  astypeIntStr : Value → Value

/-- Line 52: `df['year_month'] = df['date'].dt.strftime('%Y-%m')`. -/
def addYearMonth (co : Collab) (df : DF) : Except String DF := do
  let dates ← df.col "date"
  .ok (addCol df "year_month" (dates.map (fun v => Value.str (co.ymFmt v))))

/-- `load_and_sample_df` (lines 32-67) after the CSV read: parse dates,
optionally merge the 50km grid mapping (skipped when the file is absent,
modelled by `gridMap = none`), derive `year_month`, and sample 3% per
`(grid_id_50km, year_month)` cell. -/
def loadAndSample (co : Collab) (ch : ChoiceFn) (gridMap : Option DF) (df0 : DF) :
    Except String DF := do
  let df1 ← mapCol df0 "date" co.toDatetime
  let df2 ← match gridMap with
    | none => pure df1
    | some gm => do
      let gm1 := renameCol gm "grid_id_10km" "grid_id"
      let gm2 ← mapCol gm1 "grid_id" co.astypeIntStr
      let df1n ← mapCol df1 "grid_id" co.astypeIntStr
      pure (leftMerge df1n gm2 "grid_id")
  let df3 ← addYearMonth co df2
  groupSample ch (3/100) df3

/-! ## sklearn `GroupKFold`

Modelled from sklearn's `GroupKFold._iter_test_indices`: labels are sorted and
deduplicated (`np.unique` with `return_inverse`), group sizes are counted,
groups are processed from largest to smallest (stable argsort, reversed) and
each is assigned greedily to the currently lightest fold. -/

/-- Index of the first occurrence of `a` (length of the list when absent). -/
def idxOfD {α} [DecidableEq α] (a : α) : List α → Nat
  | [] => 0
  | b :: l => if b = a then 0 else idxOfD a l + 1

/-- `np.unique`: the distinct values, sorted. -/
def sortDedup {α} [DecidableEq α] (le : α → α → Bool) (l : List α) : List α :=
  isort le (uniqFirst l)

/-- `np.unique(gs, return_inverse=True)`: each label replaced by its rank among
the sorted distinct labels. -/
def rankSeq {α} [DecidableEq α] (le : α → α → Bool) (gs : List α) : List Nat :=
  gs.map (fun g => idxOfD g (sortDedup le gs))

/-- `np.bincount` over ranks `< n`. -/
def bincount (n : Nat) (inv : List Nat) : List Nat :=
  (List.range n).map (fun j => inv.countP (fun x => decide (x = j)))

/-- Helper of `argmin`: scan with current best index and value. -/
def argminAux : List Nat → Nat → Nat → Nat → Nat
  | [], _, bi, _ => bi
  | v :: l, i, bi, bv => if v < bv then argminAux l (i+1) i v else argminAux l (i+1) bi bv

/-- `np.argmin`: index of the first minimum (0 on the empty list). -/
def argmin : List Nat → Nat
  | [] => 0
  | v :: l => argminAux l 1 0 v

/-- `np.argsort` (stable, ascending) of the key list. -/
def argsortAsc (key : List Nat) : List Nat :=
  isort (fun i j => decide (key.getD i 0 ≤ key.getD j 0)) (List.range key.length)

/-- The greedy loop of `GroupKFold`: for each group (in processing order) add
its weight to the lightest fold and record the assignment.  State:
(per-fold sample counts, group-to-fold table). -/
def assignLoop (counts : List Nat) : List Nat → List Nat × List Nat → List Nat × List Nat
  | [], st => st
  | j :: rest, (fs, g2f) =>
    assignLoop counts rest
      (fs.set (argmin fs) (fs.getD (argmin fs) 0 + counts.getD j 0),
       g2f.set j (argmin fs))

/-- The `group_to_fold` table of `GroupKFold` for `n` splits, `nGroups` distinct
groups and inverse/rank sequence `inv`. -/
def gkfG2F (n nGroups : Nat) (inv : List Nat) : List Nat :=
  (assignLoop (bincount nGroups inv) ((argsortAsc (bincount nGroups inv)).reverse)
    (List.replicate n 0, List.replicate nGroups 0)).2

/-- The fold assigned to sample `i`. -/
def gkfFoldOfInv (n nGroups : Nat) (inv : List Nat) (i : Nat) : Nat :=
  (gkfG2F n nGroups inv).getD (inv.getD i 0) 0

/-- The `n` test-index lists (`np.where(indices == f)` for each fold `f`). -/
def gkfTestFoldsFromInv (n nGroups : Nat) (inv : List Nat) : List (List Nat) :=
  (List.range n).map (fun f =>
    (List.range inv.length).filter (fun i => decide (gkfFoldOfInv n nGroups inv i = f)))

/-- `GroupKFold(n_splits=n)` test folds over the label list `gs`; raises when
there are fewer distinct groups than splits. -/
def groupKFoldTestFolds {α} [DecidableEq α] (le : α → α → Bool) (n : Nat) (gs : List α) :
    Except String (List (List Nat)) :=
  if (sortDedup le gs).length < n then
    .error "Cannot have number of splits greater than the number of groups"
  else .ok (gkfTestFoldsFromInv n (sortDedup le gs).length (rankSeq le gs))

/-- `list(GroupKFold(n_splits=n).split(X, y, groups=gs))`: (train, test) pairs,
the train indices being the ascending complement of each test fold. -/
def groupKFoldSplit {α} [DecidableEq α] (le : α → α → Bool) (n : Nat) (gs : List α) :
    Except String (List (List Nat × List Nat)) :=
  (groupKFoldTestFolds le n gs).map (fun tests =>
    tests.map (fun t =>
      ((List.range gs.length).filter (fun i => !decide (i ∈ t)), t)))

/-! ## `run_outer_cv` (lines 72-141) -/

/-- The prediction side of the learner: one prediction per row of the feature
matrix (xgboost's `predict`), allowed to raise. -/
structure Predictor (M : Type) where
  predictFn : M → DF → Except String (List ℚ)
  predict_length : ∀ m d out, predictFn m d = .ok out → out.length = d.rows.length

/-- The abstract learner and metric collaborators of `run_outer_cv`:
`XGBRegressor(**best_params_XGB).fit`, `predict`, `feature_importances_`,
`r2_score` and `sqrt(mean_squared_error)`. -/
structure CVParams (M : Type) where
  fitFn : DF → List Value → Except String M
  pred : Predictor M
  importanceFn : M → List ℚ
  r2Fn : List Value → List ℚ → ℚ
  rmseFn : List Value → List ℚ → ℚ

/-- The three tables a fold produces (persisted after the loop) and its metrics. -/
structure FoldArt where
  impDf : DF
  trainDf : DF
  evalDf : DF
  trnR2 : ℚ
  trnRmse : ℚ
  valR2 : ℚ
  valRmse : ℚ

/-- Line 83: `drop_cols = ['date', 'grid_id', 'grid_id_50km', 'year_month']`. -/
def dropColsL : List String := ["date", "grid_id", "grid_id_50km", "year_month"]

/-- `y.iloc[idxs]` for a column of values. -/
def takeIdx (yv : List Value) (idxs : List Nat) : List Value :=
  idxs.filterMap (fun i => yv[i]?)

/-- Lines 105-108: the feature-importance table, sorted by importance
descending. -/
def impDfOf (cols : List String) (imps : List ℚ) : DF :=
  ⟨["feature", "importance"],
   (isort (fun a b => decide (b.2 ≤ a.2)) (cols.zip imps)).map
     (fun p => [("feature", Value.str p.1), ("importance", Value.num p.2)])⟩

/-- The body of one outer fold (lines 86-129): slice train/validation rows,
keep `date`/`grid_id` for record keeping, drop the non-modeling columns, fit,
take importances, predict on train and validation and attach the predictions. -/
def processFold {M} (p : CVParams M) (X : DF) (yv : List Value)
    (fold : List Nat × List Nat) : Except String (FoldArt × M) := do
  let Xtrn := X.rowsAt fold.1
  let Xval := X.rowsAt fold.2
  let ytrn := takeIdx yv fold.1
  let yval := takeIdx yv fold.2
  let trainBase ← Xtrn.select ["date", "grid_id"]
  let evalBase ← Xval.select ["date", "grid_id"]
  let trainDf0 := addCol trainBase "y_trn" ytrn
  let evalDf0 := addCol evalBase "y_val" yval
  let XtrnM := Xtrn.dropColumns dropColsL
  let XvalM := Xval.dropColumns dropColsL
  let m ← p.fitFn XtrnM ytrn
  let imp := impDfOf XtrnM.cols (p.importanceFn m)
  let ytrnPred ← p.pred.predictFn m XtrnM
  let trainDf := addCol trainDf0 "trn_y_pred" (ytrnPred.map Value.num)
  let yvalPred ← p.pred.predictFn m XvalM
  let evalDf := addCol evalDf0 "y_pred" (yvalPred.map Value.num)
  .ok ({ impDf := imp, trainDf := trainDf, evalDf := evalDf,
         trnR2 := p.r2Fn ytrn ytrnPred, trnRmse := p.rmseFn ytrn ytrnPred,
         valR2 := p.r2Fn yval yvalPred, valRmse := p.rmseFn yval yvalPred }, m)

/-- The fold loop (line 85): folds are processed strictly in order and the
model returned is the variable left by the last iteration. -/
def runFolds {M} (p : CVParams M) (X : DF) (yv : List Value) :
    List (List Nat × List Nat) → Except String (List FoldArt × M)
  | [] => .error "NameError: model_xgb is not defined"
  | [fold] => do
    let r ← processFold p X yv fold
    .ok ([r.1], r.2)
  | fold :: rest => do
    let r ← processFold p X yv fold
    let rs ← runFolds p X yv rest
    .ok (r.1 :: rs.1, rs.2)

/-- `run_outer_cv(df, features, target, group_col, ...)` (lines 72-141): build
`X`, `y` and the GroupKFold partition, run the folds, and return the per-fold
artifacts together with the last fold's model. -/
def runOuterCV {M} (p : CVParams M) (df : DF) (features : List String)
    (target grpCol : String) : Except String (List FoldArt × M) := do
  let X ← df.select features
  let yv ← df.col target
  let gcol ← df.col grpCol
  let folds ← groupKFoldSplit valueLe 10 gcol
  runFolds p X yv folds

/-- The file writes of the save loop (lines 136-139), keyed by fold index. -/
def savesOf (arts : List FoldArt) : List (String × DF) :=
  arts.enum.flatMap (fun q =>
    [("fold_" ++ Nat.repr (q.1 + 1) ++ "_XGB_feature_importance.csv", q.2.impDf),
     ("fold_" ++ Nat.repr (q.1 + 1) ++ "_XGB_traindf.csv", q.2.trainDf),
     ("fold_" ++ Nat.repr (q.1 + 1) ++ "_XGB_evaldf.csv", q.2.evalDf)])

/-- `run_outer_cv` together with its file-write trace: the `to_csv` calls all
sit in the loop at lines 136-139, after every fold has been processed, so a
failing run produces no writes. -/
def runOuterCVWrites {M} (p : CVParams M) (df : DF) (features : List String)
    (target grpCol : String) : List (String × DF) × Except String M :=
  match runOuterCV p df features target grpCol with
  | .error e => ([], .error e)
  | .ok r => (savesOf r.1, .ok r.2)

/-! ## `main` (lines 146-196) -/

/-- Lines 157-166: `feature_cols`. -/
def featureCols : List String :=
  ["aot_daily", "co_daily", "v_wind", "u_wind", "rainfall", "temp",
   "pressure", "thermal_radiation", "low_veg", "high_veg", "dewpoint_temp",
   "month", "day_of_year", "cos_day_of_year", "monsoon", "lon", "lat",
   "wind_degree", "RH", "aot_rolling", "co_rolling", "omi_no2_rolling",
   "v_wind_rolling", "u_wind_rolling", "rainfall_rolling", "temp_rolling",
   "wind_degree_rolling", "RH_rolling", "thermal_radiation_rolling",
   "dewpoint_temp_rolling", "aot_daily_annual", "co_daily_annual",
   "omi_no2_annual", "v_wind_annual", "u_wind_annual", "rainfall_annual",
   "thermal_radiation_annual", "low_veg_annual", "high_veg_annual",
   "dewpoint_temp_annual", "wind_degree_annual", "RH_annual", "co_daily_allyears"]

/-- Lines 191-195: `X_fin = df_missing[feature_cols].copy();
pred = final_model.predict(X_fin); df_missing['AOD_imputed'] = pred`. -/
def imputeCore {M} (pr : Predictor M) (m : M) (dfm : DF) : Except String DF := do
  let xfin ← dfm.select featureCols
  let preds ← pr.predictFn m xfin
  .ok (addCol dfm "AOD_imputed" (preds.map Value.num))

/-- Step 4 of `main` (lines 188-195), including the `to_datetime` parse of the
loaded missing-target table. -/
def mainImpute {M} (pr : Predictor M) (m : M) (co : Collab) (dfMissing : DF) :
    Except String DF := do
  let dfm ← mapCol dfMissing "date" co.toDatetime
  imputeCore pr m dfm

/-! ## Concrete instances used to evaluate the pipeline -/

/-- A concrete valid random draw: take the first `k` positions.  (Any
`ChoiceFn` models one fixed seeded RNG stream; this is one of them.) -/
def rangeChoice : ChoiceFn where
  choice := fun _ _ k => List.range k
  choice_length := by intro s n k _; exact List.length_range k
  choice_nodup := by intro s n k _; exact List.nodup_range k
  choice_lt := by intro s n k h i hi; exact lt_of_lt_of_le (List.mem_range.mp hi) h

/-- A predictor that returns 0 for every row (a concrete stand-in for the
fitted regressor when evaluating the pipeline's plumbing). -/
def trivPredictor : Predictor Unit where
  predictFn := fun _ d => .ok (d.rows.map (fun _ => 0))
  predict_length := by intro m d out h; cases h; simp

/-- Concrete learner collaborators whose fit always succeeds. -/
def trivParams : CVParams Unit where
  fitFn := fun _ _ => .ok ()
  pred := trivPredictor
  importanceFn := fun _ => []
  r2Fn := fun _ _ => 0
  rmseFn := fun _ _ => 0

/-- Concrete learner collaborators whose fit always raises. -/
def failParams : CVParams Unit where
  fitFn := fun _ _ => .error "XGBoostError: fit failed"
  pred := trivPredictor
  importanceFn := fun _ => []
  r2Fn := fun _ _ => 0
  rmseFn := fun _ _ => 0

/-- Identity external collaborators. -/
def collabId : Collab where
  toDatetime := id
  ymFmt := fun _ => "2020-01"
  astypeIntStr := id

/-- Each label replaced by the index of its first appearance (the canonical
form of "order of first appearance" of group identifiers). -/
def canonFirst {α} [DecidableEq α] (gs : List α) : List Nat :=
  gs.map (fun g => idxOfD g (uniqFirst gs))

/-- A one-row frame forming a single-row sampling cell. -/
def demo1 : DF :=
  ⟨["grid_id_50km", "year_month", "aod"],
   [[("grid_id_50km", Value.str "A"), ("year_month", Value.str "2020-01"),
     ("aod", Value.num 1)]]⟩

/-- Columns of a feature table shaped like `df_for_imputation` after merge. -/
def demoCols : List String := featureCols ++ ["date", "grid_id", "grid_id_50km", "aod"]

/-- One row of the demo feature table (10 distinct 50km groups). -/
def demoRow47 (i : Nat) : Row :=
  [("date", Value.date (Int.ofNat i)), ("grid_id", Value.str (Nat.repr i)),
   ("grid_id_50km", Value.str (Nat.repr i)), ("aod", Value.num (i : ℚ))] ++
  featureCols.map (fun c => (c, Value.num (i : ℚ)))

/-- A 10-row demo feature table with all the columns `main` uses. -/
def demoDf47 : DF := ⟨demoCols, (List.range 10).map demoRow47⟩

/-- A small feature table: identifier columns, one covariate, target. -/
def demoColsS : List String := ["date", "grid_id", "f1", "grid_id_50km", "aod"]

/-- One row of the small demo table. -/
def demoRowS (i : Nat) : Row :=
  [("date", Value.date (Int.ofNat i)), ("grid_id", Value.str (Nat.repr i)),
   ("f1", Value.num (i : ℚ)), ("grid_id_50km", Value.str (Nat.repr i)),
   ("aod", Value.num (i : ℚ))]

/-- A 10-row small demo table with 10 distinct groups. -/
def demoDfS : DF := ⟨demoColsS, (List.range 10).map demoRowS⟩

/-- A feature list that keeps the identifier columns (as `run_outer_cv`'s body
expects). -/
def demoFeatS : List String := ["date", "grid_id", "f1"]

/-- A one-row missing-target table carrying every feature column. -/
def demoMissing : DF := ⟨featureCols, [featureCols.map (fun c => (c, Value.num 1))]⟩

/-- A missing-target table lacking the feature columns. -/
def demoMissingBad : DF := ⟨["date"], [[("date", Value.str "2020-01-02")]]⟩

/-- A raw input table with no `grid_id_50km` column (as before any merge). -/
def demoDf0 : DF :=
  ⟨["date", "grid_id", "aod"],
   [[("date", Value.str "2020-01-02"), ("grid_id", Value.str "7"), ("aod", Value.num 1)]]⟩

/-- A mapping table covering only grid "1". -/
def demoGm : DF :=
  ⟨["grid_id", "grid_id_50km"],
   [[("grid_id", Value.str "1"), ("grid_id_50km", Value.str "G1")]]⟩

/-- A record whose fine identifier ("7") has no match in `demoGm`. -/
def demoLr : Row := [("date", Value.str "2020-01-02"), ("grid_id", Value.str "7")]

/-- A left table holding `demoLr`. -/
def demoL : DF := ⟨["date", "grid_id"], [demoLr]⟩

/-- Ten singleton groups, labels out of sorted order at the front. -/
def cexA : List Value :=
  [Value.str "b", Value.str "a", Value.str "c", Value.str "d", Value.str "e",
   Value.str "f", Value.str "g", Value.str "h", Value.str "i", Value.str "j"]

/-- Ten singleton groups with the same order-of-first-appearance pattern as
`cexA` but different labels. -/
def cexB : List Value :=
  [Value.str "a", Value.str "b", Value.str "c", Value.str "d", Value.str "e",
   Value.str "f", Value.str "g", Value.str "h", Value.str "i", Value.str "j"]

/-- Ten distinct group labels (p-names). -/
def rkA : List Value :=
  [Value.str "p0", Value.str "p1", Value.str "p2", Value.str "p3", Value.str "p4",
   Value.str "p5", Value.str "p6", Value.str "p7", Value.str "p8", Value.str "p9"]

/-- Ten distinct group labels (q-names), same ranks as `rkA`. -/
def rkB : List Value :=
  [Value.str "q0", Value.str "q1", Value.str "q2", Value.str "q3", Value.str "q4",
   Value.str "q5", Value.str "q6", Value.str "q7", Value.str "q8", Value.str "q9"]

/-! ## General lemmas -/

theorem memOfGetElem {α} {l : List α} {i : Nat} {a : α} (h : l[i]? = some a) : a ∈ l := by
  obtain ⟨hi, rfl⟩ := List.getElem?_eq_some.mp h
  exact List.getElem_mem hi

theorem length_filterMap_getElem {α} (l : List Nat) (rows : List α)
    (h : ∀ i ∈ l, i < rows.length) :
    (l.filterMap (fun i => rows[i]?)).length = l.length := by
  induction l with
  | nil => simp
  | cons i t ih =>
    have hi0 : i < rows.length := h i (by simp)
    have hi : rows[i]? = some rows[i] := List.getElem?_eq_getElem hi0
    simp only [List.filterMap_cons, hi, List.length_cons]
    rw [ih (fun j hj => h j (by simp [hj]))]

theorem mem_filterMap_getElem {α} {l : List Nat} {rows : List α} {p : α}
    (h : p ∈ l.filterMap (fun i => rows[i]?)) : p ∈ rows := by
  obtain ⟨i, _, hi⟩ := List.mem_filterMap.mp h
  exact memOfGetElem hi

theorem nodup_filterMap_getElem {α} (l : List Nat) (rows : List α)
    (hl : l.Nodup) (hb : ∀ i ∈ l, i < rows.length) (hr : rows.Nodup) :
    (l.filterMap (fun i => rows[i]?)).Nodup := by
  induction l with
  | nil => simp
  | cons i t ih =>
    have hi : i < rows.length := hb i (by simp)
    have hgi : rows[i]? = some rows[i] := List.getElem?_eq_getElem hi
    simp only [List.filterMap_cons, hgi]
    refine List.nodup_cons.mpr ⟨?_, ih hl.of_cons (fun j hj => hb j (by simp [hj]))⟩
    intro hmem
    obtain ⟨j, hjt, hj⟩ := List.mem_filterMap.mp hmem
    obtain ⟨hjlen, hje⟩ := List.getElem?_eq_some.mp hj
    have hji : j = i := hr.getElem_inj_iff.mp hje
    exact (List.nodup_cons.mp hl).1 (hji ▸ hjt)

theorem eq_of_mem_of_map_fst_nodup {α β} {L : List (α × β)}
    (h : (L.map Prod.fst).Nodup) {p q : α × β}
    (hp : p ∈ L) (hq : q ∈ L) (hfst : p.1 = q.1) : p = q := by
  obtain ⟨i, hi, hpe⟩ := List.getElem_of_mem hp
  obtain ⟨j, hj, hqe⟩ := List.getElem_of_mem hq
  have hij : i = j := by
    have hi2 : i < (L.map Prod.fst).length := by simpa using hi
    have hj2 : j < (L.map Prod.fst).length := by simpa using hj
    have hmi : (L.map Prod.fst)[i] = (L.map Prod.fst)[j] := by
      rw [List.getElem_map, List.getElem_map, hpe, hqe, hfst]
    exact h.getElem_inj_iff.mp hmi
  subst hij
  exact hpe.symm.trans hqe

/-! ## Rounding lemmas -/

theorem pyRound_nonneg {q : ℚ} (h : 0 ≤ q) : 0 ≤ pyRound q := by
  have h0 : (0 : Int) ≤ ⌊q⌋ := Int.floor_nonneg.mpr h
  unfold pyRound
  split_ifs <;> omega

theorem pyRound_le_int {q : ℚ} {n : Int} (h : q ≤ (n : ℚ)) : pyRound q ≤ n := by
  have hf : ⌊q⌋ ≤ n := by
    have h1 := Int.floor_le_floor h
    simpa using h1
  have hfl : (⌊q⌋ : ℚ) ≤ q := Int.floor_le q
  unfold pyRound
  split_ifs with h1 h2 h3
  · exact hf
  · have hq : (⌊q⌋ : ℚ) < q := by linarith
    have : ⌊q⌋ < n := by exact_mod_cast lt_of_lt_of_le hq h
    omega
  · exact hf
  · have hq : (⌊q⌋ : ℚ) < q := by
      have : (1 : ℚ)/2 ≤ q - ⌊q⌋ := not_lt.mp h1
      linarith
    have : ⌊q⌋ < n := by exact_mod_cast lt_of_lt_of_le hq h
    omega

theorem sampleN_le {f : ℚ} (n : Nat) (hf1 : f ≤ 1) : sampleN f n ≤ n := by
  have h1 : f * (n : ℚ) ≤ ((n : Int) : ℚ) := by
    push_cast
    exact mul_le_of_le_one_left (by positivity) hf1
  exact Int.toNat_le.mpr (pyRound_le_int h1)

theorem sampleN_one_eq_zero {f : ℚ} (h0 : 0 ≤ f) (h : f ≤ 1/2) : sampleN f 1 = 0 := by
  have hfl : ⌊f⌋ = 0 := Int.floor_eq_zero_iff.mpr ⟨h0, by linarith⟩
  simp only [sampleN, Nat.cast_one, mul_one, pyRound, hfl, Int.cast_zero, sub_zero]
  split_ifs with h1 h2 h3
  · rfl
  · linarith
  · rfl
  · exact absurd even_zero h3

/-! ## Sampler lemmas (Stratified Sampler, lines 54-57) -/

theorem mem_cellRows {df : DF} {k : String × String} {p : Nat × Row} :
    p ∈ cellRows df k ↔ p ∈ df.rows.enum ∧ rowKey p.2 = some k := by
  simp [cellRows, List.mem_filter]

theorem cellRows_map_fst_nodup (df : DF) (k : String × String) :
    ((cellRows df k).map Prod.fst).Nodup := by
  have h1 : (cellRows df k).Sublist df.rows.enum := List.filter_sublist _
  exact (List.nodup_enum_map_fst _).sublist (h1.map Prod.fst)

theorem cellRows_nodup (df : DF) (k : String × String) : (cellRows df k).Nodup :=
  (cellRows_map_fst_nodup df k).of_map

/-- C2, amended.  For every sampling fraction `f ∈ (0, 1]` and every `(group,
time-bucket)` cell, the sampler draws exactly `round(f * cell_size)` rows from
that cell (Python banker's rounding, as `DataFrame.sample(frac=...)` does);
the sampled rows are rows of that cell, have pairwise distinct positions, and
share no row with any other cell's sample; and a single-row cell yields zero
sampled rows whenever `f ≤ 1/2` (not whenever `f × 1 < 1`). -/
theorem sampler_cell_spec (ch : ChoiceFn) (f : ℚ) (df : DF) (k : String × String)
    (hf0 : 0 < f) (hf1 : f ≤ 1) :
    (sampleCell ch f df k).length = sampleN f (cellRows df k).length ∧
    (∀ p ∈ sampleCell ch f df k, p ∈ cellRows df k) ∧
    ((sampleCell ch f df k).map Prod.fst).Nodup ∧
    (∀ k' : String × String, k' ≠ k → ∀ p ∈ sampleCell ch f df k,
      p ∉ sampleCell ch f df k') ∧
    ((cellRows df k).length = 1 → f ≤ 1/2 → sampleCell ch f df k = []) := by
  have hkn : sampleN f (cellRows df k).length ≤ (cellRows df k).length :=
    sampleN_le _ hf1
  have hlen := ch.choice_length 42 (cellRows df k).length _ hkn
  have hnd := ch.choice_nodup 42 (cellRows df k).length _ hkn
  have hlt := ch.choice_lt 42 (cellRows df k).length _ hkn
  have hsub : ∀ p ∈ sampleCell ch f df k, p ∈ cellRows df k := by
    intro p hp
    simp only [sampleCell, sampleRows] at hp
    exact mem_filterMap_getElem hp
  refine ⟨?_, hsub, ?_, ?_, ?_⟩
  · simp only [sampleCell, sampleRows]
    rw [length_filterMap_getElem _ _ hlt, hlen]
  · have hpairs : (sampleCell ch f df k).Nodup := by
      simp only [sampleCell, sampleRows]
      exact nodup_filterMap_getElem _ _ hnd hlt (cellRows_nodup df k)
    exact hpairs.map_on (fun x hx y hy hxy =>
      eq_of_mem_of_map_fst_nodup (cellRows_map_fst_nodup df k)
        (hsub x hx) (hsub y hy) hxy)
  · intro k' hne p hp hp'
    have h1 : rowKey p.2 = some k := (mem_cellRows.mp (hsub p hp)).2
    have hsub' : p ∈ cellRows df k' := by
      simp only [sampleCell, sampleRows] at hp'
      exact mem_filterMap_getElem hp'
    have h2 : rowKey p.2 = some k' := (mem_cellRows.mp hsub').2
    exact hne (by rw [h1] at h2; exact (Option.some.injEq _ _ ▸ h2.symm : k' = k) ▸ rfl)
  · intro hone hhalf
    have hz : sampleN f (cellRows df k).length = 0 := by
      rw [hone]; exact sampleN_one_eq_zero (le_of_lt hf0) hhalf
    have : (sampleCell ch f df k).length = 0 := by
      simp only [sampleCell, sampleRows]
      rw [length_filterMap_getElem _ _ hlt, hlen, hz]
    exact List.length_eq_zero.mp this

/-- Witness: the amended sampler property evaluated at `f = 3/100` on a
concrete one-row cell. -/
theorem sampler_cell_spec_witness :
    (0 : ℚ) < 3/100 ∧ (3/100 : ℚ) ≤ 1 ∧
    ((sampleCell rangeChoice (3/100) demo1 ("A", "2020-01")).length =
        sampleN (3/100) (cellRows demo1 ("A", "2020-01")).length ∧
      (∀ p ∈ sampleCell rangeChoice (3/100) demo1 ("A", "2020-01"),
        p ∈ cellRows demo1 ("A", "2020-01")) ∧
      ((sampleCell rangeChoice (3/100) demo1 ("A", "2020-01")).map Prod.fst).Nodup ∧
      (∀ k' : String × String, k' ≠ ("A", "2020-01") →
        ∀ p ∈ sampleCell rangeChoice (3/100) demo1 ("A", "2020-01"),
          p ∉ sampleCell rangeChoice (3/100) demo1 k') ∧
      ((cellRows demo1 ("A", "2020-01")).length = 1 → (3/100 : ℚ) ≤ 1/2 →
        sampleCell rangeChoice (3/100) demo1 ("A", "2020-01") = [])) :=
  ⟨by norm_num, by norm_num,
   sampler_cell_spec rangeChoice (3/100) demo1 ("A", "2020-01")
     (by norm_num) (by norm_num)⟩

/-- C2 counterexample: a single-row cell with `f = 3/5`, so `f × 1 < 1`, yet
the sampler draws `round(3/5) = 1` row, not zero. -/
theorem single_row_cell_sampled_nonzero :
    (cellRows demo1 ("A", "2020-01")).length = 1 ∧
    (3/5 : ℚ) * ((cellRows demo1 ("A", "2020-01")).length : ℚ) < 1 ∧
    (sampleCell rangeChoice (3/5) demo1 ("A", "2020-01")).length = 1 := by
  have h : (cellRows demo1 ("A", "2020-01")).length = 1 := by decide
  have h35 : (3/5 : ℚ) * ((1 : Nat) : ℚ) = 3/5 := by norm_num
  have hfl : ⌊(3/5 : ℚ)⌋ = 0 := by
    rw [Int.floor_eq_zero_iff, Set.mem_Ico]
    constructor <;> norm_num
  have hs : sampleN (3/5) 1 = 1 := by
    simp only [sampleN, h35, pyRound, hfl]
    norm_num
  refine ⟨h, by rw [h]; norm_num, ?_⟩
  simp only [sampleCell, sampleRows, h, hs]
  decide

/-! ## Except and association-list lemmas -/

theorem except_bind_ok {ε α β} (a : α) (f : α → Except ε β) :
    ((Except.ok a : Except ε α) >>= f) = f a := rfl

theorem except_bind_err {ε α β} (e : ε) (f : α → Except ε β) :
    ((Except.error e : Except ε α) >>= f) = .error e := rfl

theorem except_pure {ε α} (a : α) : (pure a : Except ε α) = .ok a := rfl

theorem exists_ok_of_isOk {ε α} (e : Except ε α) (h : e.isOk = true) : ∃ a, e = .ok a := by
  cases e with
  | error e => simp [Except.isOk, Except.toBool] at h
  | ok a => exact ⟨a, rfl⟩

theorem lookup_cons_if {α β} [BEq α] (k a : α) (b : β) (es : List (α × β)) :
    List.lookup k ((a, b) :: es) = if k == a then some b else List.lookup k es := by
  rw [List.lookup_cons]
  cases k == a <;> simp

theorem lookup_append_none {α β} [BEq α] {l1 l2 : List (α × β)} {k : α}
    (h : l1.lookup k = none) : (l1 ++ l2).lookup k = l2.lookup k := by
  induction l1 with
  | nil => simp
  | cons p t ih =>
    rcases p with ⟨a, b⟩
    rw [lookup_cons_if] at h
    rw [List.cons_append, lookup_cons_if]
    by_cases hk : (k == a) = true
    · rw [if_pos hk] at h; exact absurd h (by simp)
    · rw [if_neg hk] at h
      rw [if_neg hk]
      exact ih h

theorem lookup_append_some {α β} [BEq α] {l1 l2 : List (α × β)} {k : α} {v : β}
    (h : l1.lookup k = some v) : (l1 ++ l2).lookup k = some v := by
  induction l1 with
  | nil => simp [List.lookup] at h
  | cons p t ih =>
    rcases p with ⟨a, b⟩
    rw [lookup_cons_if] at h
    rw [List.cons_append, lookup_cons_if]
    by_cases hk : (k == a) = true
    · rw [if_pos hk] at h
      rw [if_pos hk]
      exact h
    · rw [if_neg hk] at h
      rw [if_neg hk]
      exact ih h

theorem lookup_map_null {cs : List String} {c : String} (h : c ∈ cs) :
    (cs.map (fun x => (x, Value.null))).lookup c = some Value.null := by
  induction cs with
  | nil => cases h
  | cons a t ih =>
    rw [List.map_cons, lookup_cons_if]
    by_cases hc : c = a
    · rw [if_pos (by simp [hc])]
    · rw [if_neg (by simp [hc])]
      rcases List.mem_cons.mp h with h1 | h1
      · exact absurd h1 hc
      · exact ih h1

theorem lookup_map_replace_self (r : Row) (c : String) (v : Value) :
    (r.lookup c).isSome = true →
    (r.map (fun p => if p.1 = c then (c, v) else p)).lookup c = some v := by
  induction r with
  | nil => intro hs; simp [List.lookup] at hs
  | cons p t ih =>
    intro hs
    rcases p with ⟨a, b⟩
    rw [lookup_cons_if] at hs
    by_cases hp : a = c
    · rw [List.map_cons, if_pos (show (a, b).1 = c from hp), lookup_cons_if,
        if_pos (by simp)]
    · have hbeq : (c == a) = false := beq_eq_false_iff_ne.mpr (fun he => hp he.symm)
      rw [hbeq] at hs
      simp only [Bool.false_eq_true, if_false] at hs
      rw [List.map_cons, if_neg (show ¬(a, b).1 = c from hp), lookup_cons_if, hbeq]
      simp only [Bool.false_eq_true, if_false]
      exact ih hs

theorem lookup_map_replace_ne (r : Row) (c c' : String) (v : Value) (hne : c' ≠ c) :
    (r.map (fun p => if p.1 = c then (c, v) else p)).lookup c' = r.lookup c' := by
  induction r with
  | nil => simp
  | cons p t ih =>
    rcases p with ⟨a, b⟩
    by_cases hp : a = c
    · have hbeq : (c' == c) = false := beq_eq_false_iff_ne.mpr hne
      have hbeq2 : (c' == a) = false := by rw [hp]; exact hbeq
      rw [List.map_cons, if_pos (show (a, b).1 = c from hp), lookup_cons_if, hbeq,
        lookup_cons_if, hbeq2]
      simp only [Bool.false_eq_true, if_false]
      exact ih
    · rw [List.map_cons, if_neg (show ¬(a, b).1 = c from hp), lookup_cons_if,
        lookup_cons_if]
      by_cases hk : (c' == a) = true
      · rw [if_pos hk, if_pos hk]
      · rw [if_neg hk, if_neg hk]
        exact ih

theorem lookup_setColRow_self (r : Row) (c : String) (v : Value) :
    (setColRow r c v).lookup c = some v := by
  unfold setColRow
  split
  case isTrue hs => exact lookup_map_replace_self r c v hs
  case isFalse hs =>
    have hnone : r.lookup c = none := by
      cases h : r.lookup c with
      | none => rfl
      | some v' => rw [h] at hs; simp at hs
    rw [lookup_append_none hnone]
    simp [List.lookup]

theorem lookup_setColRow_ne (r : Row) (c c' : String) (v : Value) (hne : c' ≠ c) :
    (setColRow r c v).lookup c' = r.lookup c' := by
  unfold setColRow
  split
  case isTrue hs => exact lookup_map_replace_ne r c c' v hne
  case isFalse hs =>
    cases h : r.lookup c' with
    | none =>
      rw [lookup_append_none h, lookup_cons_if,
        if_neg (by simp [beq_eq_false_iff_ne.mpr hne])]
      simp
    | some v' => exact lookup_append_some h

theorem rowVal_setColRow_self (r : Row) (c : String) (v : Value) :
    rowVal (setColRow r c v) c = v := by
  unfold rowVal
  rw [lookup_setColRow_self]
  rfl

theorem rowVal_setColRow_ne (r : Row) (c c' : String) (v : Value) (hne : c' ≠ c) :
    rowVal (setColRow r c v) c' = rowVal r c' := by
  unfold rowVal
  rw [lookup_setColRow_ne r c c' v hne]

/-! ## DataFrame operation lemmas -/

theorem select_ok_iff {df : DF} {cs : List String} {out : DF} :
    df.select cs = .ok out ↔ (∀ c ∈ cs, c ∈ df.cols) ∧ out = selData df cs := by
  unfold DF.select
  split
  case isTrue h =>
    constructor
    · intro he
      refine ⟨fun c hc => of_decide_eq_true (List.all_eq_true.mp h c hc), ?_⟩
      cases he
      rfl
    · intro he
      rw [he.2]
  case isFalse h =>
    constructor
    · intro he; cases he
    · intro he
      exact absurd (List.all_eq_true.mpr (fun c hc => decide_eq_true (he.1 c hc))) h

theorem mapCol_ok (df : DF) (c : String) (f : Value → Value) (h : c ∈ df.cols) :
    mapCol df c f =
      .ok ⟨df.cols, df.rows.map (fun r => setColRow r c (f (rowVal r c)))⟩ := by
  unfold mapCol
  rw [if_pos h]

theorem col_ok {df : DF} {c : String} (h : c ∈ df.cols) : df.col c = .ok (colD df c) := by
  unfold DF.col
  rw [if_pos h]

theorem getD_zipWith {α β γ} (f : α → β → γ) (as : List α) (bs : List β) (i : Nat)
    (d : γ) (da : α) (db : β) (ha : i < as.length) (hb : i < bs.length) :
    (List.zipWith f as bs).getD i d = f (as.getD i da) (bs.getD i db) := by
  induction as generalizing bs i with
  | nil => simp at ha
  | cons a t ih =>
    cases bs with
    | nil => simp at hb
    | cons b u =>
      cases i with
      | zero => simp [List.zipWith]
      | succ j =>
        simp only [List.zipWith, List.getD_cons_succ]
        exact ih u j (by simpa using ha) (by simpa using hb)

theorem getD_map {α β} (f : α → β) (l : List α) (i : Nat) (d : α) :
    (l.map f).getD i (f d) = f (l.getD i d) := by
  rw [List.getD_eq_getElem?_getD, List.getElem?_map, List.getD_eq_getElem?_getD]
  cases l[i]? <;> simp

theorem rowKey_eq_none_of_null {r : Row} (h : rowVal r "grid_id_50km" = Value.null) :
    rowKey r = none := by
  unfold rowKey
  rw [h]

/-! ## C7: left-merge null padding and exclusion from grouped sampling -/

/-- C7.  After the left join onto the fine-to-coarse mapping, a record whose
fine identifier has no match keeps a null `grid_id_50km` (the merged row is the
original row padded with nulls for the mapping's columns), its groupby key is
`none`, it belongs to no sampling cell, and every row of every cell has a
non-null `grid_id_50km` (cell sizes are computed only over non-null rows). -/
theorem merge_unmatched_null_excluded (ldf gm : DF) (lr : Row)
    (hmem : lr ∈ ldf.rows)
    (hcol : "grid_id_50km" ∈ gm.cols)
    (hlr : lr.lookup "grid_id_50km" = none)
    (hnomatch : ∀ rr ∈ gm.rows, ¬ rowVal rr "grid_id" = rowVal lr "grid_id") :
    ((lr ++ (gm.cols.filter (fun c => decide (c ≠ "grid_id"))).map
        (fun c => (c, Value.null))) ∈ (leftMerge ldf gm "grid_id").rows) ∧
    rowVal (lr ++ (gm.cols.filter (fun c => decide (c ≠ "grid_id"))).map
        (fun c => (c, Value.null))) "grid_id_50km" = Value.null ∧
    rowKey (lr ++ (gm.cols.filter (fun c => decide (c ≠ "grid_id"))).map
        (fun c => (c, Value.null))) = none ∧
    (∀ (df2 : DF) (i : Nat) (k : String × String),
      (i, lr ++ (gm.cols.filter (fun c => decide (c ≠ "grid_id"))).map
        (fun c => (c, Value.null))) ∉ cellRows df2 k) ∧
    (∀ (df2 : DF) (k : String × String), ∀ p ∈ cellRows df2 k,
      rowVal p.2 "grid_id_50km" ≠ Value.null) := by
  have hfil : gm.rows.filter
      (fun rr => decide (rowVal rr "grid_id" = rowVal lr "grid_id")) = [] :=
    List.filter_eq_nil_iff.mpr (fun rr hrr => by simpa using hnomatch rr hrr)
  have hpadmem : "grid_id_50km" ∈ gm.cols.filter (fun c => decide (c ≠ "grid_id")) :=
    List.mem_filter.mpr ⟨hcol, by decide⟩
  have hnull : rowVal (lr ++ (gm.cols.filter (fun c => decide (c ≠ "grid_id"))).map
      (fun c => (c, Value.null))) "grid_id_50km" = Value.null := by
    unfold rowVal
    rw [lookup_append_none hlr, lookup_map_null hpadmem]
    rfl
  have hkey := rowKey_eq_none_of_null hnull
  refine ⟨?_, hnull, hkey, ?_, ?_⟩
  · simp only [leftMerge]
    apply List.mem_flatMap.mpr
    refine ⟨lr, hmem, ?_⟩
    rw [hfil]
    simp
  · intro df2 i k hmem2
    have h2 := (mem_cellRows.mp hmem2).2
    rw [hkey] at h2
    cases h2
  · intro df2 k p hp hnl
    have h2 := (mem_cellRows.mp hp).2
    rw [rowKey_eq_none_of_null hnl] at h2
    cases h2

/-- Witness: a concrete record with fine id "7" and a mapping covering only
"1" keeps a null coarse group after the merge and is excluded from every cell. -/
theorem merge_unmatched_null_excluded_witness :
    ((demoLr ++ (demoGm.cols.filter (fun c => decide (c ≠ "grid_id"))).map
        (fun c => (c, Value.null))) ∈ (leftMerge demoL demoGm "grid_id").rows) ∧
    rowVal (demoLr ++ (demoGm.cols.filter (fun c => decide (c ≠ "grid_id"))).map
        (fun c => (c, Value.null))) "grid_id_50km" = Value.null ∧
    rowKey (demoLr ++ (demoGm.cols.filter (fun c => decide (c ≠ "grid_id"))).map
        (fun c => (c, Value.null))) = none ∧
    (∀ (df2 : DF) (i : Nat) (k : String × String),
      (i, demoLr ++ (demoGm.cols.filter (fun c => decide (c ≠ "grid_id"))).map
        (fun c => (c, Value.null))) ∉ cellRows df2 k) ∧
    (∀ (df2 : DF) (k : String × String), ∀ p ∈ cellRows df2 k,
      rowVal p.2 "grid_id_50km" ≠ Value.null) :=
  merge_unmatched_null_excluded demoL demoGm demoLr (by decide) (by decide)
    (by decide) (by decide)

/-! ## C9: absent mapping table -/

/-- C9.  When the mapping table is absent the merge step is skipped, the frame
never gains a `grid_id_50km` column, and the downstream grouped sampling fails
with a KeyError rather than proceeding; moreover grouped sampling succeeds only
on frames that do carry the coarse-group column. -/
theorem missing_mapping_fails (co : Collab) (ch : ChoiceFn) (df0 : DF)
    (hdate : "date" ∈ df0.cols) (hno : "grid_id_50km" ∉ df0.cols) :
    loadAndSample co ch none df0 = .error "KeyError: grid_id_50km" ∧
    (∀ (ch2 : ChoiceFn) (f : ℚ) (d2 : DF) (out : DF),
      groupSample ch2 f d2 = .ok out → "grid_id_50km" ∈ d2.cols) := by
  constructor
  · have h1 := mapCol_ok df0 "date" co.toDatetime hdate
    set df1 : DF := ⟨df0.cols,
      df0.rows.map (fun r => setColRow r "date" (co.toDatetime (rowVal r "date")))⟩
      with hdf1
    have h2 : addYearMonth co df1 = .ok (addCol df1 "year_month"
        ((colD df1 "date").map (fun v => Value.str (co.ymFmt v)))) := by
      unfold addYearMonth
      rw [col_ok (show "date" ∈ df1.cols from hdate), except_bind_ok]
    set df3 := addCol df1 "year_month"
      ((colD df1 "date").map (fun v => Value.str (co.ymFmt v))) with hdf3
    have hno3 : "grid_id_50km" ∉ df3.cols := by
      rw [hdf3]
      unfold addCol
      intro hmem
      simp only at hmem
      split at hmem
      · exact hno hmem
      · rcases List.mem_append.mp hmem with h | h
        · exact hno h
        · exact absurd (List.mem_singleton.mp h) (by decide)
    have h4 : groupSample ch (3/100) df3 = .error "KeyError: grid_id_50km" := by
      unfold groupSample
      rw [if_neg (fun hand => hno3 hand.1)]
    unfold loadAndSample
    simp only [h1, except_bind_ok, except_pure, h2, h4]
  · intro ch2 f d2 out h
    unfold groupSample at h
    by_cases hc : ("grid_id_50km" ∈ d2.cols ∧ "year_month" ∈ d2.cols)
    · exact hc.1
    · rw [if_neg hc] at h
      cases h

/-- Witness: a concrete raw table without the coarse-group column makes the
pipeline fail at the grouped-sampling step. -/
theorem missing_mapping_fails_witness :
    loadAndSample collabId rangeChoice none demoDf0 = .error "KeyError: grid_id_50km" ∧
    (∀ (ch2 : ChoiceFn) (f : ℚ) (d2 : DF) (out : DF),
      groupSample ch2 f d2 = .ok out → "grid_id_50km" ∈ d2.cols) :=
  missing_mapping_fails collabId rangeChoice demoDf0 (by decide) (by decide)

/-! ## C5: imputation on a table missing a feature column -/

/-- C5.  If any required feature column is absent from the missing-target
table, the imputation step fails with a KeyError; the failure is independent
of the predictor, i.e. it happens before prediction is invoked (and, by
contraposition, prediction is reached only when all feature columns are
present). -/
theorem impute_missing_feature_error {M} (pr : Predictor M) (m : M) (dfm : DF)
    (c : String) (h1 : c ∈ featureCols) (h2 : c ∉ dfm.cols) :
    imputeCore pr m dfm = .error "KeyError: columns not in index" := by
  have hsel : dfm.select featureCols = .error "KeyError: columns not in index" := by
    unfold DF.select
    rw [if_neg (fun hall => h2 (of_decide_eq_true (List.all_eq_true.mp hall c h1)))]
  unfold imputeCore
  rw [hsel, except_bind_err]

/-- Witness: a missing-target table lacking `aot_daily` makes imputation fail
before prediction for the concrete trivial predictor. -/
theorem impute_missing_feature_error_witness :
    imputeCore trivPredictor () demoMissingBad = .error "KeyError: columns not in index" :=
  impute_missing_feature_error trivPredictor () demoMissingBad "aot_daily"
    (by decide) (by decide)

/-! ## C8: imputation is a pure frame extension -/

/-- C8.  On success, the imputation output is the input missing-target table
with exactly one added column `AOD_imputed`: the schema gains only that column,
the row count is unchanged, every pre-existing column's value is unchanged in
every row, and the new column holds exactly the model's predictions. -/
theorem impute_frame_effect {M} (pr : Predictor M) (m : M) (dfm out : DF)
    (hA : "AOD_imputed" ∉ dfm.cols)
    (h : imputeCore pr m dfm = .ok out) :
    out.cols = dfm.cols ++ ["AOD_imputed"] ∧
    out.rows.length = dfm.rows.length ∧
    (∀ (i : Nat), ∀ c ∈ dfm.cols,
      rowVal (out.rows.getD i []) c = rowVal (dfm.rows.getD i []) c) ∧
    (∃ xfin preds, dfm.select featureCols = .ok xfin ∧
      pr.predictFn m xfin = .ok preds ∧
      ∀ i : Nat, i < dfm.rows.length →
        rowVal (out.rows.getD i []) "AOD_imputed" = Value.num (preds.getD i 0)) := by
  rcases hsel : dfm.select featureCols with e | xfin
  · unfold imputeCore at h
    rw [hsel, except_bind_err] at h
    cases h
  rcases hpred : pr.predictFn m xfin with e | preds
  · unfold imputeCore at h
    rw [hsel] at h
    simp only [except_bind_ok] at h
    rw [hpred, except_bind_err] at h
    cases h
  unfold imputeCore at h
  rw [hsel] at h
  simp only [except_bind_ok] at h
  rw [hpred] at h
  simp only [except_bind_ok] at h
  cases h
  have hxl : xfin.rows.length = dfm.rows.length := by
    rw [(select_ok_iff.mp hsel).2]
    exact List.length_map _ _
  have hpl : preds.length = xfin.rows.length := pr.predict_length m xfin preds hpred
  have hvl : (preds.map Value.num).length = dfm.rows.length := by
    rw [List.length_map, hpl, hxl]
  have hrows : (addCol dfm "AOD_imputed" (preds.map Value.num)).rows.length =
      dfm.rows.length := by
    simp [addCol, List.length_zipWith, hvl]
  refine ⟨by simp [addCol, if_neg hA], hrows, ?_, ?_⟩
  · intro i c hc
    by_cases hi : i < dfm.rows.length
    · have hib : i < (preds.map Value.num).length := by rw [hvl]; exact hi
      have hz : (addCol dfm "AOD_imputed" (preds.map Value.num)).rows =
          List.zipWith (fun r v => setColRow r "AOD_imputed" v) dfm.rows
            (preds.map Value.num) := rfl
      rw [hz, getD_zipWith _ _ _ i [] [] Value.null hi hib]
      exact rowVal_setColRow_ne _ _ _ _ (fun he => hA (he ▸ hc))
    · have hge : dfm.rows.length ≤ i := le_of_not_lt hi
      have hge2 : (addCol dfm "AOD_imputed" (preds.map Value.num)).rows.length ≤ i := by
        rw [hrows]; exact hge
      rw [List.getD_eq_default _ _ hge2, List.getD_eq_default _ _ hge]
  · refine ⟨xfin, preds, rfl, hpred, ?_⟩
    intro i hi
    have hib : i < (preds.map Value.num).length := by rw [hvl]; exact hi
    have hz : (addCol dfm "AOD_imputed" (preds.map Value.num)).rows =
        List.zipWith (fun r v => setColRow r "AOD_imputed" v) dfm.rows
          (preds.map Value.num) := rfl
    rw [hz, getD_zipWith _ _ _ i [] [] (Value.num 0) hi hib,
      rowVal_setColRow_self, getD_map Value.num preds i 0]

/-- Witness: the frame-effect property evaluated on a concrete one-row
missing-target table with the trivial predictor. -/
theorem impute_frame_effect_witness :
    ∃ out, imputeCore trivPredictor () demoMissing = Except.ok out ∧
      (out.cols = demoMissing.cols ++ ["AOD_imputed"] ∧
       out.rows.length = demoMissing.rows.length ∧
       (∀ (i : Nat), ∀ c ∈ demoMissing.cols,
         rowVal (out.rows.getD i []) c = rowVal (demoMissing.rows.getD i []) c) ∧
       (∃ xfin preds, demoMissing.select featureCols = .ok xfin ∧
         trivPredictor.predictFn () xfin = .ok preds ∧
         ∀ i : Nat, i < demoMissing.rows.length →
           rowVal (out.rows.getD i []) "AOD_imputed" = Value.num (preds.getD i 0))) := by
  obtain ⟨out, hout⟩ :=
    exists_ok_of_isOk (imputeCore trivPredictor () demoMissing) (by decide)
  exact ⟨out, hout, impute_frame_effect trivPredictor () demoMissing out (by decide) hout⟩

/-! ## GroupKFold lemmas -/

theorem argminAux_lt (l : List Nat) (i bi bv k : Nat) (h1 : bi < k)
    (h2 : i + l.length ≤ k) : argminAux l i bi bv < k := by
  induction l generalizing i bi bv with
  | nil => simpa [argminAux] using h1
  | cons v t ih =>
    simp only [List.length_cons] at h2
    simp only [argminAux]
    split
    · exact ih (i+1) i v (by omega) (by omega)
    · exact ih (i+1) bi bv h1 (by omega)

theorem argmin_lt_length {l : List Nat} (h : l ≠ []) : argmin l < l.length := by
  cases l with
  | nil => exact absurd rfl h
  | cons v t =>
    simp only [argmin, List.length_cons]
    exact argminAux_lt t 1 0 v (t.length + 1) (by omega) (by omega)

theorem assignLoop_g2f_lt (n : Nat) (hn : 0 < n) (counts : List Nat)
    (order : List Nat) : ∀ (fs g2f : List Nat), fs.length = n →
    (∀ x ∈ g2f, x < n) → ∀ x ∈ (assignLoop counts order (fs, g2f)).2, x < n := by
  induction order with
  | nil => intro fs g2f _ hg x hx; exact hg x hx
  | cons j rest ih =>
    intro fs g2f hfs hg x hx
    simp only [assignLoop] at hx
    refine ih _ _ ?_ ?_ x hx
    · rw [List.length_set]; exact hfs
    · intro y hy
      rcases List.mem_or_eq_of_mem_set hy with h | h
      · exact hg y h
      · subst h
        have hne : fs ≠ [] := List.ne_nil_of_length_pos (hfs ▸ hn)
        calc argmin fs < fs.length := argmin_lt_length hne
          _ = n := hfs

theorem getD_lt_of_forall {l : List Nat} {n : Nat} (hn : 0 < n)
    (h : ∀ x ∈ l, x < n) (j : Nat) : l.getD j 0 < n := by
  rw [List.getD_eq_getElem?_getD]
  cases hj : l[j]? with
  | none => simpa using hn
  | some x => simpa using h x (memOfGetElem hj)

theorem gkfFoldOfInv_lt (n nGroups : Nat) (hn : 0 < n) (inv : List Nat) (i : Nat) :
    gkfFoldOfInv n nGroups inv i < n := by
  unfold gkfFoldOfInv gkfG2F
  apply getD_lt_of_forall hn
  apply assignLoop_g2f_lt n hn _ _ _ _ (List.length_replicate n 0)
  intro x hx
  rw [List.eq_of_mem_replicate hx]
  exact hn

theorem getD_map_of_lt {α β} (f : α → β) (l : List α) {i : Nat} (h : i < l.length)
    (d : β) (d' : α) : (l.map f).getD i d = f (l.getD i d') := by
  rw [List.getD_eq_getElem?_getD, List.getElem?_map, List.getElem?_eq_getElem h]
  simp [List.getD_eq_getElem?_getD, List.getElem?_eq_getElem h]

theorem mem_gkfTestFold {n nGroups : Nat} {inv : List Nat} {f i : Nat} (hf : f < n) :
    i ∈ (gkfTestFoldsFromInv n nGroups inv).getD f [] ↔
      (i < inv.length ∧ gkfFoldOfInv n nGroups inv i = f) := by
  unfold gkfTestFoldsFromInv
  rw [getD_map_of_lt _ _ (by rw [List.length_range]; exact hf) [] 0]
  rw [List.getD_eq_getElem?_getD, List.getElem?_range hf]
  simp [List.mem_filter, List.mem_range]

theorem gkfTestFolds_length (n nGroups : Nat) (inv : List Nat) :
    (gkfTestFoldsFromInv n nGroups inv).length = n := by
  unfold gkfTestFoldsFromInv
  rw [List.length_map, List.length_range]

theorem mem_trainFold {len : Nat} {t : List Nat} {i : Nat} :
    i ∈ (List.range len).filter (fun i => !decide (i ∈ t)) ↔ (i < len ∧ i ∉ t) := by
  simp [List.mem_filter, List.mem_range]

theorem groupKFoldSplit_ok_iff {α} [DecidableEq α] {le : α → α → Bool} {n : Nat}
    {gs : List α} {pairs : List (List Nat × List Nat)} :
    groupKFoldSplit le n gs = .ok pairs ↔
      ¬ (sortDedup le gs).length < n ∧
      pairs = (gkfTestFoldsFromInv n (sortDedup le gs).length (rankSeq le gs)).map
        (fun t => ((List.range gs.length).filter (fun i => !decide (i ∈ t)), t)) := by
  unfold groupKFoldSplit groupKFoldTestFolds
  split
  case isTrue h =>
    constructor
    · intro he; cases he
    · intro he; exact absurd h he.1
  case isFalse h =>
    simp only [Except.map]
    constructor
    · intro he
      cases he
      exact ⟨h, rfl⟩
    · intro he
      rw [he.2]

/-- C3.  For every successful 10-fold GroupKFold partition: there are ten
(train, validation) pairs, the validation sets are pairwise disjoint, their
union is exactly the full index set, each fold's train indices and validation
indices carry disjoint sets of group labels, and every group label appears in
exactly one fold's validation set. -/
theorem group_kfold_partition (gs : List Value) (pairs : List (List Nat × List Nat))
    (h : groupKFoldSplit valueLe 10 gs = .ok pairs) :
    pairs.length = 10 ∧
    (∀ f1 f2, f1 < 10 → f2 < 10 → f1 ≠ f2 → ∀ i, i ∈ (pairs.getD f1 ([], [])).2 →
      i ∉ (pairs.getD f2 ([], [])).2) ∧
    (∀ i, i < gs.length ↔ ∃ f, f < 10 ∧ i ∈ (pairs.getD f ([], [])).2) ∧
    (∀ f, f < 10 → ∀ i1 ∈ (pairs.getD f ([], [])).1, ∀ i2 ∈ (pairs.getD f ([], [])).2,
      gs.getD i1 Value.null ≠ gs.getD i2 Value.null) ∧
    (∀ i, i < gs.length → ∃! f, f < 10 ∧ ∃ j, j ∈ (pairs.getD f ([], [])).2 ∧
      gs.getD j Value.null = gs.getD i Value.null) := by
  obtain ⟨hguard, hpairs⟩ := groupKFoldSplit_ok_iff.mp h
  have hn0 : (0 : Nat) < 10 := by norm_num
  have hinvlen : (rankSeq valueLe gs).length = gs.length := List.length_map _ _
  have hlen10 : (gkfTestFoldsFromInv 10 (sortDedup valueLe gs).length
      (rankSeq valueLe gs)).length = 10 := gkfTestFolds_length _ _ _
  have hfold_lt : ∀ i, gkfFoldOfInv 10 (sortDedup valueLe gs).length
      (rankSeq valueLe gs) i < 10 := gkfFoldOfInv_lt _ _ hn0 _
  have hpair : ∀ f, f < 10 → pairs.getD f ([], []) =
      ((List.range gs.length).filter (fun i => !decide
        (i ∈ (gkfTestFoldsFromInv 10 (sortDedup valueLe gs).length
          (rankSeq valueLe gs)).getD f [])),
       (gkfTestFoldsFromInv 10 (sortDedup valueLe gs).length
          (rankSeq valueLe gs)).getD f []) := by
    intro f hf
    rw [hpairs, getD_map_of_lt _ _ (by rw [hlen10]; exact hf) ([], []) []]
  have hmemval : ∀ f, f < 10 → ∀ i, (i ∈ (pairs.getD f ([], [])).2 ↔
      (i < gs.length ∧ gkfFoldOfInv 10 (sortDedup valueLe gs).length
        (rankSeq valueLe gs) i = f)) := by
    intro f hf i
    rw [hpair f hf]
    rw [← hinvlen]
    exact mem_gkfTestFold hf
  have hmemtrn : ∀ f, f < 10 → ∀ i, (i ∈ (pairs.getD f ([], [])).1 ↔
      (i < gs.length ∧ ¬ gkfFoldOfInv 10 (sortDedup valueLe gs).length
        (rankSeq valueLe gs) i = f)) := by
    intro f hf i
    rw [hpair f hf]
    rw [mem_trainFold]
    constructor
    · rintro ⟨h1, h2⟩
      refine ⟨h1, fun he => h2 ?_⟩
      exact (mem_gkfTestFold hf).mpr ⟨hinvlen ▸ h1, he⟩
    · rintro ⟨h1, h2⟩
      refine ⟨h1, fun he => h2 ?_⟩
      exact ((mem_gkfTestFold hf).mp he).2
  have hsame : ∀ i j, i < gs.length → j < gs.length →
      gs.getD i Value.null = gs.getD j Value.null →
      gkfFoldOfInv 10 (sortDedup valueLe gs).length (rankSeq valueLe gs) i =
      gkfFoldOfInv 10 (sortDedup valueLe gs).length (rankSeq valueLe gs) j := by
    intro i j hi hj hg
    unfold gkfFoldOfInv
    have h1 : (rankSeq valueLe gs).getD i 0 =
        idxOfD (gs.getD i Value.null) (sortDedup valueLe gs) :=
      getD_map_of_lt _ gs hi 0 Value.null
    have h2 : (rankSeq valueLe gs).getD j 0 =
        idxOfD (gs.getD j Value.null) (sortDedup valueLe gs) :=
      getD_map_of_lt _ gs hj 0 Value.null
    rw [h1, h2, hg]
  refine ⟨?_, ?_, ?_, ?_, ?_⟩
  · rw [hpairs, List.length_map, hlen10]
  · intro f1 f2 h1 h2 hne i hi1 hi2
    have e1 := ((hmemval f1 h1 i).mp hi1).2
    have e2 := ((hmemval f2 h2 i).mp hi2).2
    exact hne (e1 ▸ e2 ▸ rfl)
  · intro i
    constructor
    · intro hi
      exact ⟨_, hfold_lt i, (hmemval _ (hfold_lt i) i).mpr ⟨hi, rfl⟩⟩
    · rintro ⟨f, hf, hmem⟩
      exact ((hmemval f hf i).mp hmem).1
  · intro f hf i1 hi1 i2 hi2 heq
    have e1 := (hmemtrn f hf i1).mp hi1
    have e2 := (hmemval f hf i2).mp hi2
    exact e1.2 ((hsame i1 i2 e1.1 e2.1 heq).trans e2.2)
  · intro i hi
    refine ⟨gkfFoldOfInv 10 (sortDedup valueLe gs).length (rankSeq valueLe gs) i,
      ⟨hfold_lt i, i, (hmemval _ (hfold_lt i) i).mpr ⟨hi, rfl⟩, rfl⟩, ?_⟩
    rintro f ⟨hf, j, hjmem, hjg⟩
    have e := (hmemval f hf j).mp hjmem
    rw [← e.2]
    exact hsame j i e.1 hi hjg

/-- Witness: the partition properties evaluated on ten concrete singleton
groups. -/
theorem group_kfold_partition_witness :
    ∃ pairs, groupKFoldSplit valueLe 10 cexB = Except.ok pairs ∧
      (pairs.length = 10 ∧
      (∀ f1 f2, f1 < 10 → f2 < 10 → f1 ≠ f2 → ∀ i, i ∈ (pairs.getD f1 ([], [])).2 →
        i ∉ (pairs.getD f2 ([], [])).2) ∧
      (∀ i, i < cexB.length ↔ ∃ f, f < 10 ∧ i ∈ (pairs.getD f ([], [])).2) ∧
      (∀ f, f < 10 → ∀ i1 ∈ (pairs.getD f ([], [])).1, ∀ i2 ∈ (pairs.getD f ([], [])).2,
        cexB.getD i1 Value.null ≠ cexB.getD i2 Value.null) ∧
      (∀ i, i < cexB.length → ∃! f, f < 10 ∧ ∃ j, j ∈ (pairs.getD f ([], [])).2 ∧
        cexB.getD j Value.null = cexB.getD i Value.null)) := by
  obtain ⟨pairs, hp⟩ :=
    exists_ok_of_isOk (groupKFoldSplit valueLe 10 cexB) (by decide)
  exact ⟨pairs, hp, group_kfold_partition cexB pairs hp⟩

/-! ## C6: determinism and what fold assignment depends on -/

theorem insertLe_perm {α} (le : α → α → Bool) (a : α) (l : List α) :
    (insertLe le a l).Perm (a :: l) := by
  induction l with
  | nil => exact List.Perm.refl _
  | cons b t ih =>
    unfold insertLe
    split
    · exact List.Perm.refl _
    · exact (ih.cons b).trans (List.Perm.swap a b t)

theorem isort_perm {α} (le : α → α → Bool) (l : List α) : (isort le l).Perm l := by
  induction l with
  | nil => exact List.Perm.refl _
  | cons a t ih => exact (insertLe_perm le a (isort le t)).trans (ih.cons a)

theorem mem_uniqFirst {α} [DecidableEq α] {l : List α} {a : α} :
    a ∈ uniqFirst l ↔ a ∈ l := by
  induction l with
  | nil => simp [uniqFirst]
  | cons b t ih =>
    unfold uniqFirst
    constructor
    · intro h
      rcases List.mem_cons.mp h with h | h
      · rw [h]; exact List.mem_cons_self b t
      · exact List.mem_cons_of_mem b (ih.mp (List.mem_filter.mp h).1)
    · intro h
      rcases List.mem_cons.mp h with h | h
      · rw [h]; exact List.mem_cons_self b _
      · by_cases hab : a = b
        · rw [hab]; exact List.mem_cons_self b _
        · exact List.mem_cons_of_mem b
            (List.mem_filter.mpr ⟨ih.mpr h, by simp [hab]⟩)

theorem nodup_uniqFirst {α} [DecidableEq α] (l : List α) : (uniqFirst l).Nodup := by
  induction l with
  | nil => simp [uniqFirst]
  | cons b t ih =>
    unfold uniqFirst
    refine List.nodup_cons.mpr ⟨?_, ih.filter _⟩
    intro hmem
    have := (List.mem_filter.mp hmem).2
    simp at this

theorem mem_sortDedup {α} [DecidableEq α] {le : α → α → Bool} {l : List α} {a : α} :
    a ∈ sortDedup le l ↔ a ∈ l := by
  unfold sortDedup
  rw [(isort_perm le (uniqFirst l)).mem_iff]
  exact mem_uniqFirst

theorem nodup_sortDedup {α} [DecidableEq α] (le : α → α → Bool) (l : List α) :
    (sortDedup le l).Nodup :=
  (isort_perm le (uniqFirst l)).nodup_iff.mpr (nodup_uniqFirst l)

theorem idxOfD_lt_length {α} [DecidableEq α] {a : α} {l : List α} (h : a ∈ l) :
    idxOfD a l < l.length := by
  induction l with
  | nil => cases h
  | cons b t ih =>
    unfold idxOfD
    split
    · simp
    · rename_i hba
      have hat : a ∈ t := by
        rcases List.mem_cons.mp h with h1 | h1
        · exact absurd h1.symm hba
        · exact h1
      simpa using ih hat

theorem idxOfD_getElem {α} [DecidableEq α] {l : List α} (hn : l.Nodup) (j : Nat)
    (hj : j < l.length) : idxOfD l[j] l = j := by
  induction l generalizing j with
  | nil => simp at hj
  | cons b t ih =>
    cases j with
    | zero => simp [idxOfD]
    | succ j =>
      have hj' : j < t.length := by simpa using hj
      have hne : b ≠ (b :: t)[j+1] := by
        intro he
        have hmem : (b :: t)[j+1] ∈ t := by
          rw [List.getElem_cons_succ]
          exact List.getElem_mem hj'
        rw [← he] at hmem
        exact (List.nodup_cons.mp hn).1 hmem
      rw [show ((b :: t)[j+1] : α) = t[j] from List.getElem_cons_succ ..]
      unfold idxOfD
      rw [if_neg (by rw [List.getElem_cons_succ] at hne; exact hne)]
      rw [ih (List.nodup_cons.mp hn).2 j hj']

theorem mem_rankSeq_iff {α} [DecidableEq α] (le : α → α → Bool) (gs : List α)
    (j : Nat) : j ∈ rankSeq le gs ↔ j < (sortDedup le gs).length := by
  constructor
  · intro h
    obtain ⟨g, hg, he⟩ := List.mem_map.mp h
    rw [← he]
    exact idxOfD_lt_length (mem_sortDedup.mpr hg)
  · intro hj
    apply List.mem_map.mpr
    refine ⟨(sortDedup le gs)[j], ?_, ?_⟩
    · exact mem_sortDedup.mp (List.getElem_mem hj)
    · exact idxOfD_getElem (nodup_sortDedup le gs) j hj

theorem rankSeq_eq_imp_len {α} [DecidableEq α] {le : α → α → Bool}
    {gs1 gs2 : List α} (h : rankSeq le gs1 = rankSeq le gs2) :
    (sortDedup le gs1).length = (sortDedup le gs2).length := by
  rcases Nat.lt_trichotomy (sortDedup le gs1).length (sortDedup le gs2).length
    with hlt | heq | hgt
  · exfalso
    have hm := (mem_rankSeq_iff le gs2 (sortDedup le gs1).length).mpr hlt
    rw [← h] at hm
    exact absurd ((mem_rankSeq_iff le gs1 _).mp hm) (lt_irrefl _)
  · exact heq
  · exfalso
    have hm := (mem_rankSeq_iff le gs1 (sortDedup le gs2).length).mpr hgt
    rw [h] at hm
    exact absurd ((mem_rankSeq_iff le gs2 _).mp hm) (lt_irrefl _)

/-- C6, amended.  The cross-validator is a deterministic pure function of the
label sequence, and its fold assignment is fully determined by the rank
sequence (each label replaced by its rank among the sorted distinct labels):
two label sequences with the same rank sequence give the same partition.  (It
is NOT determined by the order of first appearance alone; see the
counterexample.) -/
theorem fold_assignment_rank_det {α} [DecidableEq α] (le : α → α → Bool)
    (n : Nat) (gs1 gs2 : List α) (h : rankSeq le gs1 = rankSeq le gs2) :
    groupKFoldTestFolds le n gs1 = groupKFoldTestFolds le n gs2 := by
  have hlen := rankSeq_eq_imp_len h
  unfold groupKFoldTestFolds
  rw [h, hlen]

/-- Witness: two concrete label sequences with equal rank sequences produce
identical partitions. -/
theorem fold_assignment_rank_det_witness :
    rankSeq valueLe rkA = rankSeq valueLe rkB ∧
    groupKFoldTestFolds valueLe 10 rkA = groupKFoldTestFolds valueLe 10 rkB :=
  ⟨by decide, fold_assignment_rank_det valueLe 10 rkA rkB (by decide)⟩

/-- C6 counterexample: two group sequences with the same order-of-first-
appearance pattern (both are ten fresh singleton labels in a row) receive
different fold assignments, because sklearn's GroupKFold processes groups by
sorted label order, not first appearance. -/
theorem fold_assignment_not_first_appearance :
    canonFirst cexA = canonFirst cexB ∧
    (groupKFoldTestFolds valueLe 10 cexA).toOption ≠
      (groupKFoldTestFolds valueLe 10 cexB).toOption := by
  constructor
  · decide
  · decide

/-! ## run_outer_cv lemmas -/

theorem processFold_ok_fit {M} {p : CVParams M} {X : DF} {yv : List Value}
    {fold : List Nat × List Nat} {art : FoldArt} {m : M}
    (h : processFold p X yv fold = .ok (art, m)) :
    p.fitFn ((X.rowsAt fold.1).dropColumns dropColsL) (takeIdx yv fold.1) = .ok m := by
  simp only [processFold] at h
  rcases h1 : (X.rowsAt fold.1).select ["date", "grid_id"] with e | tb
  · rw [h1, except_bind_err] at h; cases h
  rw [h1] at h; simp only [except_bind_ok] at h
  rcases h2 : (X.rowsAt fold.2).select ["date", "grid_id"] with e | eb
  · rw [h2, except_bind_err] at h; cases h
  rw [h2] at h; simp only [except_bind_ok] at h
  rcases h3 : p.fitFn ((X.rowsAt fold.1).dropColumns dropColsL) (takeIdx yv fold.1)
    with e | m'
  · rw [h3, except_bind_err] at h; cases h
  rw [h3] at h; simp only [except_bind_ok] at h
  rcases h4 : p.pred.predictFn m' ((X.rowsAt fold.1).dropColumns dropColsL) with e | tp
  · rw [h4, except_bind_err] at h; cases h
  rw [h4] at h; simp only [except_bind_ok] at h
  rcases h5 : p.pred.predictFn m' ((X.rowsAt fold.2).dropColumns dropColsL) with e | vp
  · rw [h5, except_bind_err] at h; cases h
  rw [h5] at h; simp only [except_bind_ok] at h
  cases h
  rfl

theorem processFold_error_no_date {M} (p : CVParams M) (X : DF) (yv : List Value)
    (fold : List Nat × List Nat) (hd : "date" ∉ X.cols) :
    processFold p X yv fold = .error "KeyError: columns not in index" := by
  have hsel : (X.rowsAt fold.1).select ["date", "grid_id"] =
      .error "KeyError: columns not in index" := by
    unfold DF.select
    rw [if_neg]
    intro hall
    exact hd (of_decide_eq_true (List.all_eq_true.mp hall "date" (by simp)))
  simp only [processFold, hsel, except_bind_err]

theorem processFold_not_ok_of_fit_error {M} (p : CVParams M) (s : String)
    (hf : ∀ A b, p.fitFn A b = .error s) (X : DF) (yv : List Value)
    (fold : List Nat × List Nat) : ∀ r, processFold p X yv fold ≠ .ok r := by
  intro r h
  simp only [processFold] at h
  rcases h1 : (X.rowsAt fold.1).select ["date", "grid_id"] with e | tb
  · rw [h1, except_bind_err] at h; cases h
  rw [h1] at h; simp only [except_bind_ok] at h
  rcases h2 : (X.rowsAt fold.2).select ["date", "grid_id"] with e | eb
  · rw [h2, except_bind_err] at h; cases h
  rw [h2] at h; simp only [except_bind_ok] at h
  rw [hf _ _, except_bind_err] at h
  cases h

theorem runFolds_cons_error {M} (p : CVParams M) (X : DF) (yv : List Value)
    (f : List Nat × List Nat) (rest : List (List Nat × List Nat)) (e : String)
    (h : processFold p X yv f = .error e) :
    runFolds p X yv (f :: rest) = .error e := by
  cases rest with
  | nil => unfold runFolds; rw [h]; rfl
  | cons g u => unfold runFolds; rw [h]; rfl

theorem runFolds_ok_last {M} (p : CVParams M) (X : DF) (yv : List Value) :
    ∀ (folds : List (List Nat × List Nat)) (arts : List FoldArt) (m : M),
    runFolds p X yv folds = .ok (arts, m) →
    folds ≠ [] ∧ arts.length = folds.length ∧
    ∃ art, processFold p X yv (folds.getLastD ([], [])) = .ok (art, m) := by
  intro folds
  induction folds with
  | nil => intro arts m h; unfold runFolds at h; cases h
  | cons f rest ih =>
    intro arts m h
    cases rest with
    | nil =>
      unfold runFolds at h
      rcases hr : processFold p X yv f with e | r
      · rw [hr, except_bind_err] at h; cases h
      · rw [hr, except_bind_ok] at h
        cases h
        exact ⟨by simp, by simp, r.1, by rw [show ([f] : List (List Nat × List Nat)).getLastD ([], []) = f from rfl, hr]⟩
    | cons g u =>
      unfold runFolds at h
      rcases hr : processFold p X yv f with e | r
      · rw [hr, except_bind_err] at h; cases h
      · rw [hr, except_bind_ok] at h
        rcases hrest : runFolds p X yv (g :: u) with e | rs
        · rw [hrest, except_bind_err] at h; cases h
        · rw [hrest, except_bind_ok] at h
          cases h
          obtain ⟨hne, hlen, art, hlast⟩ := ih rs.1 rs.2 (by rw [hrest])
          refine ⟨by simp, by simp [hlen], art, ?_⟩
          rw [List.getLastD_cons, List.getLastD_cons]
          rw [List.getLastD_cons] at hlast
          exact hlast

theorem runFolds_ok_all {M} (p : CVParams M) (X : DF) (yv : List Value) :
    ∀ (folds : List (List Nat × List Nat)) (arts : List FoldArt) (m : M),
    runFolds p X yv folds = .ok (arts, m) →
    ∀ j, j < folds.length → ∃ r, processFold p X yv (folds.getD j ([], [])) = .ok r := by
  intro folds
  induction folds with
  | nil => intro _ _ _ j hj; simp at hj
  | cons f rest ih =>
    intro arts m h j hj
    cases rest with
    | nil =>
      unfold runFolds at h
      rcases hr : processFold p X yv f with e | r
      · rw [hr, except_bind_err] at h; cases h
      · cases j with
        | zero => exact ⟨r, by simpa using hr⟩
        | succ j' => simp at hj
    | cons g u =>
      unfold runFolds at h
      rcases hr : processFold p X yv f with e | r
      · rw [hr, except_bind_err] at h; cases h
      · rw [hr, except_bind_ok] at h
        rcases hrest : runFolds p X yv (g :: u) with e | rs
        · rw [hrest, except_bind_err] at h; cases h
        · cases j with
          | zero => exact ⟨r, by simpa using hr⟩
          | succ j' =>
            exact ih rs.1 rs.2 (by rw [hrest]) j' (by simpa using hj)

theorem runOuterCV_ok_components {M} {p : CVParams M} {df : DF}
    {features : List String} {target grpCol : String} {arts : List FoldArt} {m : M}
    (h : runOuterCV p df features target grpCol = .ok (arts, m)) :
    df.select features = .ok (selData df features) ∧
    ∃ pairs, groupKFoldSplit valueLe 10 (colD df grpCol) = .ok pairs ∧
      runFolds p (selData df features) (colD df target) pairs = .ok (arts, m) := by
  unfold runOuterCV at h
  rcases h1 : df.select features with e | X
  · rw [h1, except_bind_err] at h; cases h
  rw [h1] at h; simp only [except_bind_ok] at h
  rcases h2 : df.col target with e | yv
  · rw [h2, except_bind_err] at h; cases h
  rw [h2] at h; simp only [except_bind_ok] at h
  rcases h3 : df.col grpCol with e | gcol
  · rw [h3, except_bind_err] at h; cases h
  rw [h3] at h; simp only [except_bind_ok] at h
  rcases h4 : groupKFoldSplit valueLe 10 gcol with e | pairs
  · rw [h4, except_bind_err] at h; cases h
  rw [h4] at h; simp only [except_bind_ok] at h
  obtain ⟨hsub, hX⟩ := select_ok_iff.mp h1
  have hyv : yv = colD df target := by
    unfold DF.col at h2
    split at h2
    · exact (Except.ok.inj h2).symm
    · cases h2
  have hgc : gcol = colD df grpCol := by
    unfold DF.col at h3
    split at h3
    · exact (Except.ok.inj h3).symm
    · cases h3
  subst hX hyv hgc
  exact ⟨rfl, pairs, h4, h⟩

/-! ## C1: the per-fold prediction tables (code bug at main's call) -/

/-- C1 evaluation.  With the inputs `main` passes (`features = feature_cols`,
which contains neither `date` nor `grid_id`), `run_outer_cv` raises a KeyError
at `X_trn[['date','grid_id']]` in the very first fold — before any fitting —
so no training-prediction or validation-prediction table is ever built or
persisted.  Hypotheses: the data frame has the feature/target/group columns
and at least ten distinct groups, so that nothing fails earlier. -/
theorem run_outer_cv_keyerror {M} (p : CVParams M) (df : DF)
    (h1 : ∀ c ∈ featureCols, c ∈ df.cols)
    (h2 : "aod" ∈ df.cols)
    (h3 : "grid_id_50km" ∈ df.cols)
    (h4 : ¬ (sortDedup valueLe (colD df "grid_id_50km")).length < 10) :
    runOuterCV p df featureCols "aod" "grid_id_50km" =
      .error "KeyError: columns not in index" := by
  have hsel : df.select featureCols = .ok (selData df featureCols) :=
    select_ok_iff.mpr ⟨h1, rfl⟩
  have hcolt := col_ok h2
  have hcolg := col_ok h3
  obtain ⟨pairs, hgkf, hlen⟩ : ∃ pairs,
      groupKFoldSplit valueLe 10 (colD df "grid_id_50km") = .ok pairs ∧
      pairs.length = 10 := by
    refine ⟨_, groupKFoldSplit_ok_iff.mpr ⟨h4, rfl⟩, ?_⟩
    rw [List.length_map, gkfTestFolds_length]
  obtain ⟨f0, rest, hcons⟩ : ∃ f0 rest, pairs = f0 :: rest := by
    cases hp : pairs with
    | nil => rw [hp] at hlen; simp at hlen
    | cons a b => exact ⟨a, b, rfl⟩
  have hpf : processFold p (selData df featureCols) (colD df "aod") f0 =
      .error "KeyError: columns not in index" :=
    processFold_error_no_date p (selData df featureCols) (colD df "aod") f0
      (show ("date" : String) ∉ featureCols by decide)
  unfold runOuterCV
  rw [hsel]
  simp only [except_bind_ok]
  rw [hcolt]
  simp only [except_bind_ok]
  rw [hcolg]
  simp only [except_bind_ok]
  rw [hgkf]
  simp only [except_bind_ok]
  rw [hcons]
  exact runFolds_cons_error p _ _ f0 rest _ hpf

/-- Witness: a concrete 47-column table with ten groups; the actual `main`
call of `run_outer_cv` fails with the KeyError. -/
theorem run_outer_cv_keyerror_witness :
    runOuterCV trivParams demoDf47 featureCols "aod" "grid_id_50km" =
      .error "KeyError: columns not in index" :=
  run_outer_cv_keyerror trivParams demoDf47 (by decide) (by decide) (by decide)
    (by decide)

/-! ## C4: the imputation model is the last fold's model -/

/-- C4.  A successful `run_outer_cv` returns exactly the model fitted in the
last fold of the partition (not an ensemble and not a best-by-metric choice):
the returned `m` is the output of `fitFn` on the last fold's training matrix.
The imputation step then computes its predictions with that very model. -/
theorem last_fold_model_used {M} (p : CVParams M) (df : DF)
    (features : List String) (target grpCol : String) (arts : List FoldArt)
    (m : M) (dfm out : DF)
    (h : runOuterCV p df features target grpCol = .ok (arts, m))
    (h2 : imputeCore p.pred m dfm = .ok out) :
    (∃ pairs art, groupKFoldSplit valueLe 10 (colD df grpCol) = .ok pairs ∧
      pairs ≠ [] ∧ arts.length = pairs.length ∧
      processFold p (selData df features) (colD df target)
        (pairs.getLastD ([], [])) = .ok (art, m) ∧
      p.fitFn (((selData df features).rowsAt
          (pairs.getLastD ([], [])).1).dropColumns dropColsL)
        (takeIdx (colD df target) (pairs.getLastD ([], [])).1) = .ok m) ∧
    (∃ xfin preds, dfm.select featureCols = .ok xfin ∧
      p.pred.predictFn m xfin = .ok preds ∧
      out = addCol dfm "AOD_imputed" (preds.map Value.num)) := by
  obtain ⟨hsel, pairs, hgkf, hrf⟩ := runOuterCV_ok_components h
  obtain ⟨hne, hlen, art, hlast⟩ := runFolds_ok_last p _ _ pairs arts m hrf
  refine ⟨⟨pairs, art, hgkf, hne, hlen, hlast, processFold_ok_fit hlast⟩, ?_⟩
  rcases hs : dfm.select featureCols with e | xfin
  · unfold imputeCore at h2
    rw [hs, except_bind_err] at h2
    cases h2
  unfold imputeCore at h2
  rw [hs] at h2
  simp only [except_bind_ok] at h2
  rcases hp : p.pred.predictFn m xfin with e | preds
  · rw [hp, except_bind_err] at h2; cases h2
  rw [hp] at h2
  simp only [except_bind_ok] at h2
  cases h2
  exact ⟨xfin, preds, rfl, hp, rfl⟩

/-- Witness: a full successful run on a small table whose feature list keeps
the identifier columns, followed by imputation with the returned model. -/
theorem last_fold_model_used_witness :
    ∃ arts out,
      runOuterCV trivParams demoDfS demoFeatS "aod" "grid_id_50km" =
        Except.ok (arts, ()) ∧
      imputeCore trivPredictor () demoMissing = Except.ok out ∧
      ((∃ pairs art, groupKFoldSplit valueLe 10 (colD demoDfS "grid_id_50km") =
          .ok pairs ∧ pairs ≠ [] ∧ arts.length = pairs.length ∧
        processFold trivParams (selData demoDfS demoFeatS) (colD demoDfS "aod")
          (pairs.getLastD ([], [])) = .ok (art, ()) ∧
        trivParams.fitFn (((selData demoDfS demoFeatS).rowsAt
            (pairs.getLastD ([], [])).1).dropColumns dropColsL)
          (takeIdx (colD demoDfS "aod") (pairs.getLastD ([], [])).1) = .ok ()) ∧
      (∃ xfin preds, demoMissing.select featureCols = .ok xfin ∧
        trivParams.pred.predictFn () xfin = .ok preds ∧
        out = addCol demoMissing "AOD_imputed" (preds.map Value.num))) := by
  obtain ⟨⟨arts, u⟩, hr⟩ := exists_ok_of_isOk
    (runOuterCV trivParams demoDfS demoFeatS "aod" "grid_id_50km") (by decide)
  obtain ⟨out, hout⟩ := exists_ok_of_isOk
    (imputeCore trivPredictor () demoMissing) (by decide)
  cases u
  exact ⟨arts, out, hr, hout,
    last_fold_model_used trivParams demoDfS demoFeatS "aod" "grid_id_50km"
      arts () demoMissing out hr hout⟩

/-! ## C10: all-or-nothing artifact persistence -/

/-- C10.  The `to_csv` writes all happen in the save loop after every fold has
completed, so if any fold's body (fit or predict included) raises, the run
produces zero per-fold artifact files and no model. -/
theorem all_or_nothing_persistence {M} (p : CVParams M) (df : DF)
    (features : List String) (target grpCol : String)
    (hfail : ∃ pairs j, groupKFoldSplit valueLe 10 (colD df grpCol) = .ok pairs ∧
      j < pairs.length ∧
      ∀ r, processFold p (selData df features) (colD df target)
        (pairs.getD j ([], [])) ≠ .ok r) :
    (runOuterCVWrites p df features target grpCol).1 = [] ∧
    ∀ m, (runOuterCVWrites p df features target grpCol).2 ≠ .ok m := by
  obtain ⟨pairs, j, hgkf, hj, hnot⟩ := hfail
  have hnotok : ∀ (r : List FoldArt × M),
      runOuterCV p df features target grpCol ≠ .ok r := by
    intro r hok
    obtain ⟨hsel, pairs', hgkf', hrf⟩ :=
      runOuterCV_ok_components (show _ = .ok (r.1, r.2) from hok)
    have hpe : pairs' = pairs := Except.ok.inj (hgkf'.symm.trans hgkf)
    rw [hpe] at hrf
    obtain ⟨rr, hrr⟩ := runFolds_ok_all p _ _ pairs r.1 r.2 hrf j hj
    exact hnot rr hrr
  rcases hcv : runOuterCV p df features target grpCol with e | r
  · constructor
    · simp only [runOuterCVWrites, hcv]
    · intro m
      simp only [runOuterCVWrites, hcv]
      intro hk
      cases hk
  · exact absurd hcv (hnotok r)

/-- Witness: with a fit that always raises, the run on a concrete table
persists nothing and returns no model. -/
theorem all_or_nothing_persistence_witness :
    (runOuterCVWrites failParams demoDfS demoFeatS "aod" "grid_id_50km").1 = [] ∧
    ∀ m, (runOuterCVWrites failParams demoDfS demoFeatS "aod" "grid_id_50km").2 ≠
      .ok m := by
  apply all_or_nothing_persistence
  obtain ⟨pairs, hp⟩ := exists_ok_of_isOk
    (groupKFoldSplit valueLe 10 (colD demoDfS "grid_id_50km")) (by decide)
  refine ⟨pairs, 0, hp, ?_, ?_⟩
  · rw [(groupKFoldSplit_ok_iff.mp hp).2, List.length_map, gkfTestFolds_length]
    norm_num
  · exact processFold_not_ok_of_fit_error failParams "XGBoostError: fit failed"
      (fun A b => rfl) _ _ _

end AodImpute
